import Mathlib

/-!
Shallow embedding of `src/app/postman-performance-test.js`, a load-generation
harness that repeatedly runs a Postman collection for several simulated users
and aggregates per-request latency and status-code statistics.

JavaScript numbers carrying latencies are modelled as rationals (`ℚ`), status
codes as integers (`ℤ`), and the insertion-ordered `Map` objects of the source
as association lists whose update functions mirror the source
`has`/`get`/`push`/`set` call pattern.  Thrown exceptions are modelled with
`Except`, and `process.exit` as a returned exit code.
-/

namespace PostmanPerf

/-- One element of the array stored under a request name in the `runs` map:
the object `{responseCode, responseTime}` pushed by `addRunSummary`. -/
structure RunEntry where
  responseCode : Int
  responseTime : ℚ
deriving DecidableEq, Repr

/-- The object built in `runCallback` for each execution of the newman run
summary: `{name: run.item.name, responseCode: run.response.code,
responseTime: run.response.responseTime}`. -/
structure RunSummary where
  name : String
  responseCode : Int
  responseTime : ℚ
deriving DecidableEq, Repr

/-- The entry derived from a `RunSummary` when it is pushed into the store. -/
def RunSummary.toEntry (s : RunSummary) : RunEntry :=
  ⟨s.responseCode, s.responseTime⟩

/-- The global `runs` map: request name to insertion-ordered array of entries.
Modelled as an association list in insertion order, keys unique as produced
by `addRunSummary` from the empty map. -/
abbrev RunStore := List (String × List RunEntry)

/-- Source `addRunSummary(runSummary)` (lines 235–251): if the map has the name,
push `{responseCode, responseTime}` onto the existing array (the subsequent
`runs.set` re-stores the same array); otherwise set the name to a fresh
one-element array. -/
def addRunSummary : RunStore → RunSummary → RunStore
  | [], s => [(s.name, [s.toEntry])]
  | (n, es) :: rest, s =>
    if n = s.name then (n, es ++ [s.toEntry]) :: rest
    else (n, es) :: addRunSummary rest s

/-- Reading `runs.get(name)`, with the convention that an absent key reads as the
empty array. -/
def lookupRuns (name : String) : RunStore → List RunEntry
  | [] => []
  | (n, es) :: rest => if n = name then es else lookupRuns name rest

/-- The loop in `runCallback` that calls `addRunSummary` once per execution
entry of a run summary. -/
def addAllRunSummaries (st : RunStore) (l : List RunSummary) : RunStore :=
  l.foldl addRunSummary st

/-- Source `getMinimumResponseTime(runSummaries)` (lines 253–255):
`Math.min(...runSummaries.map(run => run.responseTime))`.  On the empty
array JavaScript yields `Infinity`, which has no rational counterpart;
the `0` placeholder below is never relied on (all claims concern non-empty
sequences). -/
def getMinimumResponseTime (l : List RunEntry) : ℚ :=
  match l.map (·.responseTime) with
  | [] => 0
  | t :: ts => ts.foldl min t

/-- Source `getMaximumResponseTime(runSummaries)` (lines 257–259):
`Math.max(...)`; empty-array placeholder as for the minimum. -/
def getMaximumResponseTime (l : List RunEntry) : ℚ :=
  match l.map (·.responseTime) with
  | [] => 0
  | t :: ts => ts.foldl max t

/-- The `reduce` in `getAverageResponseTime` accumulating
`total + current.responseTime` from `0`. -/
def totalResponseTime (l : List RunEntry) : ℚ :=
  l.foldl (fun total current => total + current.responseTime) 0

/-- Source `getAverageResponseTime(runSummaries)` (lines 261–268):
`Math.round(totalResponseTime / runSummaries.length)`.  `Math.round x`
is `⌊x + 1/2⌋`, which is the Mathlib `round` on `ℚ`. -/
def getAverageResponseTime (l : List RunEntry) : ℤ :=
  round (totalResponseTime l / (l.length : ℚ))

/-- One step of `getResponseCodeCounts`: if the map has the code, set it to
the current count plus one, else set it to `1`. -/
def incrementCodeCount : List (Int × ℕ) → Int → List (Int × ℕ)
  | [], c => [(c, 1)]
  | (c0, k) :: rest, c =>
    if c0 = c then (c0, k + 1) :: rest
    else (c0, k) :: incrementCodeCount rest c

/-- Source `getResponseCodeCounts(runSummaries)` (lines 270–283): builds a `Map`
from response code to occurrence count by iterating over the entries. -/
def getResponseCodeCounts (l : List RunEntry) : List (Int × ℕ) :=
  l.foldl (fun m run => incrementCodeCount m run.responseCode) []

/-- Reading `responseCodeCounts.get(code)`, taking an absent code as count `0`. -/
def lookupCodeCount (c : Int) : List (Int × ℕ) → ℕ
  | [] => 0
  | (c0, k) :: rest => if c0 = c then k else lookupCodeCount c rest

/-- The classification applied per code in `displayResults` (lines 134–140):
`code === 200` prints `(success)`, every other code prints `(error)`. -/
def codeFlag (code : Int) : String :=
  if code = 200 then "success" else "error"

/-- One rendered section of `displayResults` for a request name: average,
minimum and maximum response time plus the annotated code histogram. -/
structure ReportSection where
  name : String
  average : ℤ
  minimum : ℚ
  maximum : ℚ
  codes : List (Int × ℕ × String)
deriving DecidableEq, Repr

/-- The data printed by `displayResults` (lines 122–145): one section per
entry of the `runs` map, in map order. -/
def displayResultsSections (st : RunStore) : List ReportSection :=
  st.map (fun p =>
    { name := p.1
      average := getAverageResponseTime p.2
      minimum := getMinimumResponseTime p.2
      maximum := getMaximumResponseTime p.2
      codes := (getResponseCodeCounts p.2).map
        (fun q => (q.1, q.2, codeFlag q.1)) })

/-- Source `stopExecution` (lines 112–120): when `report` is set it renders the
results and exits 0, otherwise it exits 0 immediately.  The first component
is the rendered report (`none` when nothing is rendered), the second the
process exit code. -/
def stopExecution (report : Bool) (st : RunStore) :
    Option (List ReportSection) × ℕ :=
  if report then (some (displayResultsSections st), 0) else (none, 0)

/-- The stagger computation of the user-generation loop (line 94):
`stagger ? Math.floor(Math.random() * interval) + 1 : 0`, with the value of
`Math.random()` (a number in `[0, 1)`) passed in as `r`. -/
def staggerBy (stagger : Bool) (interval : ℕ) (r : ℚ) : ℕ :=
  if stagger then (⌊r * (interval : ℚ)⌋).toNat + 1 else 0

/-- The user-generation loop (lines 92–99): for `i` in `[0, users)`, user
number `i + 1` is scheduled after its stagger delay.  `rand i` is the value
`Math.random()` returned on iteration `i`. -/
def generateUsers (users : ℕ) (stagger : Bool) (interval : ℕ)
    (rand : ℕ → ℚ) : List (ℕ × ℕ) :=
  (List.range users).map (fun i => (i + 1, staggerBy stagger interval (rand i)))

/-- Source `runCallback(error, summary)` (lines 215–233): a run-level error is
thrown (modelled as `Except.error`), terminating without touching the store;
otherwise the summary of every execution is appended via `addRunSummary`. -/
def runCallback (st : RunStore) (error : Option String)
    (executions : List RunSummary) : Except String RunStore :=
  match error with
  | some e => Except.error e
  | none => Except.ok (addAllRunSummaries st executions)

/-- The results of one scheduled collection run as reported by the execution
engine: an optional run-level error and the per-request execution entries. -/
abbrev TickResult := Option String × List RunSummary

/-- Repeated invocation of `runCallback`, one call per completed run.  A
thrown error is uncaught in the source, so it propagates: no later tick is
processed. -/
def processTicks : RunStore → List TickResult → Except String RunStore
  | st, [] => Except.ok st
  | st, (err, execs) :: rest =>
    match runCallback st err execs with
    | Except.error e => Except.error e
    | Except.ok st2 => processTicks st2 rest

/-- A whole run: process the completed ticks starting from the empty store,
then let the deadline handler `stopExecution` render (or not) and exit.
An uncaught run error kills the process before `stopExecution` ever runs. -/
def runToCompletion (st : RunStore) (ticks : List TickResult)
    (report : Bool) : Except String (Option (List ReportSection) × ℕ) :=
  (processTicks st ticks).map (stopExecution report)

/-- JSON values, as passed to `JSON.stringify` for request bodies. -/
inductive Json where
  | null
  | bool (b : Bool)
  | num (n : Int)
  | str (s : String)
  | arr (xs : List Json)
  | obj (fields : List (String × Json))

/-- String escaping performed by `JSON.stringify` for quotes and
backslashes (the bodies exercised here contain no control characters). -/
def jsonEscape (s : String) : String :=
  String.mk (s.data.foldr
    (fun c acc =>
      if c = '"' then '\\' :: '"' :: acc
      else if c = '\\' then '\\' :: '\\' :: acc
      else c :: acc) [])

mutual

/-- Model of `JSON.stringify` on a JSON value. -/
def Json.stringify : Json → String
  | .null => "null"
  | .bool true => "true"
  | .bool false => "false"
  | .num n => toString n
  | .str s => "\"" ++ jsonEscape s ++ "\""
  | .arr xs => "[" ++ Json.stringifyList xs ++ "]"
  | .obj fields => "\x7b" ++ Json.stringifyFields fields ++ "\x7d"

/-- Comma-separated serialization of array elements. -/
def Json.stringifyList : List Json → String
  | [] => ""
  | [x] => Json.stringify x
  | x :: y :: rest => Json.stringify x ++ "," ++ Json.stringifyList (y :: rest)

/-- Comma-separated serialization of object fields. -/
def Json.stringifyFields : List (String × Json) → String
  | [] => ""
  | [f] => "\"" ++ jsonEscape f.1 ++ "\":" ++ Json.stringify f.2
  | f :: g :: rest =>
    "\"" ++ jsonEscape f.1 ++ "\":" ++ Json.stringify f.2 ++ "," ++
      Json.stringifyFields (g :: rest)

end

/-- One entry of the `requests` array of the loaded data file: a request name and
its candidate `bodies`. -/
structure DataRequest where
  name : String
  bodies : List Json

/-- One element pushed onto `envVarConfig`: the `key` and the stringified
body `value` (`none` models the `undefined` produced when the
`bodies` array of the entry is empty and the negative/NaN index reads `undefined`). -/
abbrev EnvVar := String × Option String

/-- The `collection.item.forEach((item, i) => ...)` loop of `runCollection`
(lines 181–199), with the running item index made explicit: for each item
whose name has a matching entry in `requests` (first match, as `find`),
push `{key: requestBody(i+1), value: JSON.stringify(bodies[(userNumber-1) %
bodies.length])}`.  `userNumber` is always `i + 1 ≥ 1` at the call sites, so
the JavaScript `%` agrees with truncated subtraction plus `Nat` mod here. -/
def buildEnvVarsFrom (i : ℕ) (userNumber : ℕ) (reqs : List DataRequest) :
    List String → List EnvVar
  | [] => []
  | item :: rest =>
    match reqs.find? (fun request => request.name = item) with
    | some request =>
      ("requestBody" ++ toString (i + 1),
        (request.bodies[(userNumber - 1) % request.bodies.length]?).map
          Json.stringify) ::
        buildEnvVarsFrom (i + 1) userNumber reqs rest
    | none => buildEnvVarsFrom (i + 1) userNumber reqs rest

/-- The `envVarConfig` produced by `runCollection` for a run: the forEach
loop above guarded by `data && requests.length > 0` (line 180). -/
def runCollectionEnvVars (hasDataFile : Bool) (items : List String)
    (reqs : List DataRequest) (userNumber : ℕ) : List EnvVar :=
  if hasDataFile ∧ 0 < reqs.length then buildEnvVarsFrom 0 userNumber reqs items
  else []

/-- Digit loop of `parseInt(value, 10)`: reads decimal digits
until the first non-digit; with no digit read the result is `NaN`
(modelled `none`). -/
def parseDecimalDigits : List Char → Option ℕ → Option ℕ
  | [], acc => acc
  | c :: rest, acc =>
    if c.isDigit then
      parseDecimalDigits rest (some ((acc.getD 0) * 10 + (c.toNat - 48)))
    else acc

/-- Source `myParseInt(value)` (lines 20–26): `parseInt(value, 10)` — skip leading
whitespace, read an optional sign and then decimal digits — and `none`
(a thrown `InvalidArgumentError`) when the result is `NaN`. -/
def myParseInt (s : String) : Option Int :=
  match s.data.dropWhile Char.isWhitespace with
  | '-' :: rest => (parseDecimalDigits rest none).map (fun n => -(n : Int))
  | '+' :: rest => (parseDecimalDigits rest none).map (fun n => (n : Int))
  | cs => (parseDecimalDigits cs none).map (fun n => (n : Int))

/-- The fate of a required integer option under commander: `myParseInt`
throwing `InvalidArgumentError` makes commander report the error and exit
non-zero before any scheduling starts. -/
def parseRequiredIntOption (s : String) : Except String Int :=
  match myParseInt s with
  | none => Except.error "Not a number."
  | some n => Except.ok n

/-! ### Concrete demo inputs used in the claim theorems -/

/-- Entries with the status codes of the histogram example of the spec
`[200, 200, 404, 200, 500]`. -/
def demoHistogramEntries : List RunEntry :=
  [⟨200, 10⟩, ⟨200, 20⟩, ⟨404, 30⟩, ⟨200, 40⟩, ⟨500, 50⟩]

/-- A one-request store holding the histogram example entries. -/
def demoStore : RunStore := [("Req", demoHistogramEntries)]

/-- Entries with latencies `[10, 20, 30]`, the first average example of the spec. -/
def demoLatencies123 : List RunEntry := [⟨200, 10⟩, ⟨200, 20⟩, ⟨200, 30⟩]

/-- Entries with latencies `[10, 11]`, the round-half-up example of the spec. -/
def demoLatencies1011 : List RunEntry := [⟨200, 10⟩, ⟨200, 11⟩]

/-- Demo body `{"x": 1}` for the rotation examples. -/
def demoBodyA : Json := Json.obj [("x", Json.num 1)]

/-- Demo body `{"x": 2}` for the rotation examples. -/
def demoBodyB : Json := Json.obj [("x", Json.num 2)]

/-- A data file giving two candidate bodies to the request `Create`. -/
def demoRequests : List DataRequest := [⟨"Create", [demoBodyA, demoBodyB]⟩]

/-- A data file matching items `A` and `C` but not `B`. -/
def demoGapRequests : List DataRequest :=
  [⟨"A", [demoBodyA]⟩, ⟨"C", [demoBodyB]⟩]

/-! ### Aggregator store lemmas -/

theorem lookupRuns_addRunSummary (s : RunSummary) (n : String) :
    ∀ st : RunStore, lookupRuns n (addRunSummary st s) =
      lookupRuns n st ++ (if s.name = n then [s.toEntry] else [])
  | [] => by
    by_cases h : s.name = n <;> simp [addRunSummary, lookupRuns, h]
  | (m, es) :: rest => by
    by_cases h1 : m = s.name
    · subst h1
      by_cases h2 : s.name = n
      · subst h2
        simp [addRunSummary, lookupRuns]
      · simp [addRunSummary, lookupRuns, h2]
    · by_cases h2 : m = n
      · subst h2
        have hs : ¬ s.name = m := fun h => h1 h.symm
        simp [addRunSummary, lookupRuns, h1, hs]
      · simp [addRunSummary, lookupRuns, h1, h2,
          lookupRuns_addRunSummary s n rest]

theorem lookupRuns_addAllRunSummaries (n : String) :
    ∀ (L : List RunSummary) (st : RunStore),
      lookupRuns n (addAllRunSummaries st L) =
        lookupRuns n st ++
          (L.filter (fun s => s.name = n)).map RunSummary.toEntry
  | [], st => by simp [addAllRunSummaries]
  | s :: L, st => by
    have ih := lookupRuns_addAllRunSummaries n L (addRunSummary st s)
    simp only [addAllRunSummaries, List.foldl_cons] at ih ⊢
    rw [ih, lookupRuns_addRunSummary]
    by_cases h : s.name = n <;> simp [h]

/-- C1: each `addRunSummary` call appends exactly one entry under the
own request name of the record, creating the key if absent: after any sequence
of calls, the records under a name are the previous ones (unchanged, in
order) followed by exactly the appended records carrying that name, so the
per-name count grows by exactly the number of calls for that name and every
sequence of every other name is untouched. -/
theorem addRunSummary_appends_exactly (st : RunStore) (L : List RunSummary)
    (n : String) :
    lookupRuns n (addAllRunSummaries st L) =
      lookupRuns n st ++
        (L.filter (fun s => s.name = n)).map RunSummary.toEntry ∧
    (lookupRuns n (addAllRunSummaries st L)).length =
      (lookupRuns n st).length + (L.filter (fun s => s.name = n)).length := by
  refine ⟨lookupRuns_addAllRunSummaries n L st, ?_⟩
  rw [lookupRuns_addAllRunSummaries n L st]
  simp

/-! ### Stagger bounds -/

/-- C4: with `stagger` unset the computed delay is `0`; with `stagger` set
the delay `Math.floor(Math.random() * interval) + 1` lies in
`[1, interval]` for every possible value `r ∈ [0, 1)` of the random
source. -/
theorem staggerBy_bounds (interval : ℕ) (r : ℚ) (hi : 0 < interval)
    (h0 : 0 ≤ r) (h1 : r < 1) :
    staggerBy false interval r = 0 ∧
    1 ≤ staggerBy true interval r ∧ staggerBy true interval r ≤ interval := by
  refine ⟨rfl, by simp [staggerBy], ?_⟩
  have hfl : (0 : ℤ) ≤ ⌊r * (interval : ℚ)⌋ :=
    Int.floor_nonneg.mpr (mul_nonneg h0 (by positivity))
  have hlt : ⌊r * (interval : ℚ)⌋ < (interval : ℤ) := by
    apply Int.floor_lt.mpr
    push_cast
    calc r * (interval : ℚ) < 1 * (interval : ℚ) := by
          apply mul_lt_mul_of_pos_right h1 (by exact_mod_cast hi)
      _ = (interval : ℚ) := one_mul _
  show ⌊r * (interval : ℚ)⌋.toNat + 1 ≤ interval
  omega

/-- C4 witness: concrete instance with `interval = 5` and random draw
`r = 1/2`: the staggered delay is within `[1, 5]` and the unstaggered delay
is `0`. -/
theorem staggerBy_bounds_witness :
    staggerBy false 5 (1 / 2) = 0 ∧
    1 ≤ staggerBy true 5 (1 / 2) ∧ staggerBy true 5 (1 / 2) ≤ 5 :=
  staggerBy_bounds 5 (1 / 2) (by norm_num) (by norm_num) (by norm_num)

/-! ### Run-level error propagation -/

/-- C5: a run-level error reported by the execution engine is thrown by
`runCallback`, so nothing of that run is appended (the store is abandoned
as it was), every later tick is abandoned, and the whole run ends in the
error — `stopExecution` never runs, so no summary is rendered even when
`report` is set. -/
theorem runError_fatal (st : RunStore) (e : String)
    (execs : List RunSummary) (rest : List TickResult) (report : Bool) :
    runCallback st (some e) execs = Except.error e ∧
    processTicks st ((some e, execs) :: rest) = Except.error e ∧
    runToCompletion st ((some e, execs) :: rest) report = Except.error e := by
  refine ⟨rfl, rfl, ?_⟩
  simp [runToCompletion, processTicks, runCallback, Except.map]

/-! ### Status-code classification -/

/-- C7: a status code is annotated `success` in the rendered report exactly
when it equals `200`; every other code — other `2xx` codes included — is
annotated `error`, and the rendered section for the records
`[200, 200, 404, 200, 500]` carries the histogram `200 ↦ 3`, `404 ↦ 1`,
`500 ↦ 1` with only the `200` entry flagged as success.  The rule is a
constant of the program: `codeFlag` depends on nothing but the
code. -/
theorem codeFlag_success_iff_200 (c : Int) :
    (codeFlag c = "success" ↔ c = 200) ∧
    codeFlag 201 = "error" ∧
    codeFlag 204 = "error" ∧
    codeFlag 500 = "error" ∧
    lookupCodeCount 200 (getResponseCodeCounts demoHistogramEntries) = 3 ∧
    lookupCodeCount 404 (getResponseCodeCounts demoHistogramEntries) = 1 ∧
    lookupCodeCount 500 (getResponseCodeCounts demoHistogramEntries) = 1 ∧
    (displayResultsSections demoStore).map (fun sec => sec.codes) =
      [[(200, 3, "success"), (404, 1, "error"), (500, 1, "error")]] := by
  refine ⟨⟨fun h => ?_, fun h => by simp [codeFlag, h]⟩, ?_⟩
  · by_contra hc
    simp [codeFlag, hc] at h
  · decide

/-! ### Zero users -/

/-- C8: with `userCount = 0` the user-generation loop creates no timeline,
no tick ever runs so the store stays empty, rendering the empty store
yields a report with zero sections without failing, and the process exits
with code `0` — whether or not a report was requested. -/
theorem zeroUsers_emptyReport (stagger : Bool) (interval : ℕ)
    (rand : ℕ → ℚ) (report : Bool) :
    generateUsers 0 stagger interval rand = [] ∧
    processTicks [] [] = Except.ok [] ∧
    displayResultsSections [] = [] ∧
    stopExecution true [] = (some [], 0) ∧
    (stopExecution report []).2 = 0 ∧
    runToCompletion [] [] report = Except.ok (stopExecution report []) := by
  refine ⟨by simp [generateUsers], rfl, rfl, rfl, ?_, rfl⟩
  by_cases h : report <;> simp [stopExecution, h]

/-! ### Summary statistics -/

theorem foldl_min_mem (x : ℚ) : ∀ xs : List ℚ, xs.foldl min x ∈ x :: xs
  | [] => by simp
  | y :: ys => by
    have h := foldl_min_mem (min x y) ys
    simp only [List.foldl_cons]
    rcases List.mem_cons.mp h with h | h
    · rw [h]
      rcases min_choice x y with hm | hm <;> simp [hm]
    · simp [h]

theorem foldl_min_le_init (x : ℚ) : ∀ xs : List ℚ, xs.foldl min x ≤ x
  | [] => le_refl x
  | y :: ys => le_trans (foldl_min_le_init (min x y) ys) (min_le_left x y)

theorem foldl_min_le (x : ℚ) :
    ∀ (xs : List ℚ) (y : ℚ), y ∈ x :: xs → xs.foldl min x ≤ y
  | [], y, hy => by
    simp at hy
    simp [hy]
  | z :: zs, y, hy => by
    simp only [List.foldl_cons]
    rcases List.mem_cons.mp hy with h | h
    · rw [h]
      exact le_trans (foldl_min_le_init (min x z) zs) (min_le_left x z)
    · rcases List.mem_cons.mp h with h | h
      · rw [h]
        exact le_trans (foldl_min_le_init (min x z) zs) (min_le_right x z)
      · exact foldl_min_le (min x z) zs y (List.mem_cons_of_mem _ h)

theorem foldl_max_mem (x : ℚ) : ∀ xs : List ℚ, xs.foldl max x ∈ x :: xs
  | [] => by simp
  | y :: ys => by
    have h := foldl_max_mem (max x y) ys
    simp only [List.foldl_cons]
    rcases List.mem_cons.mp h with h | h
    · rw [h]
      rcases max_choice x y with hm | hm <;> simp [hm]
    · simp [h]

theorem le_foldl_max_init (x : ℚ) : ∀ xs : List ℚ, x ≤ xs.foldl max x
  | [] => le_refl x
  | y :: ys => le_trans (le_max_left x y) (le_foldl_max_init (max x y) ys)

theorem le_foldl_max (x : ℚ) :
    ∀ (xs : List ℚ) (y : ℚ), y ∈ x :: xs → y ≤ xs.foldl max x
  | [], y, hy => by
    simp at hy
    simp [hy]
  | z :: zs, y, hy => by
    simp only [List.foldl_cons]
    rcases List.mem_cons.mp hy with h | h
    · rw [h]
      exact le_trans (le_max_left x z) (le_foldl_max_init (max x z) zs)
    · rcases List.mem_cons.mp h with h | h
      · rw [h]
        exact le_trans (le_max_right x z) (le_foldl_max_init (max x z) zs)
      · exact le_foldl_max (max x z) zs y (List.mem_cons_of_mem _ h)

theorem foldl_add_responseTime :
    ∀ (l : List RunEntry) (a : ℚ),
      l.foldl (fun total current => total + current.responseTime) a =
        a + (l.map (·.responseTime)).sum
  | [], a => by simp
  | c :: l, a => by
    simp only [List.foldl_cons, List.map_cons, List.sum_cons]
    rw [foldl_add_responseTime l (a + c.responseTime)]
    ring

theorem totalResponseTime_eq_sum (l : List RunEntry) :
    totalResponseTime l = (l.map (·.responseTime)).sum := by
  simpa using foldl_add_responseTime l 0

theorem lookupCodeCount_increment (c : Int) :
    ∀ (m : List (Int × ℕ)) (c0 : Int),
      lookupCodeCount c (incrementCodeCount m c0) =
        lookupCodeCount c m + (if c0 = c then 1 else 0)
  | [], c0 => by
    by_cases h : c0 = c <;> simp [incrementCodeCount, lookupCodeCount, h]
  | (c1, k) :: rest, c0 => by
    by_cases h1 : c1 = c0
    · subst h1
      by_cases h2 : c1 = c
      · subst h2
        simp [incrementCodeCount, lookupCodeCount]
      · simp [incrementCodeCount, lookupCodeCount, h2]
    · by_cases h2 : c1 = c
      · subst h2
        have hc : ¬ c0 = c1 := fun h => h1 h.symm
        simp [incrementCodeCount, lookupCodeCount, h1, hc]
      · simp [incrementCodeCount, lookupCodeCount, h1, h2,
          lookupCodeCount_increment c rest c0]

theorem lookupCodeCount_fold (c : Int) :
    ∀ (l : List RunEntry) (m : List (Int × ℕ)),
      lookupCodeCount c
          (l.foldl (fun m run => incrementCodeCount m run.responseCode) m) =
        lookupCodeCount c m +
          (l.filter (fun r => r.responseCode = c)).length
  | [], m => by simp
  | r :: l, m => by
    simp only [List.foldl_cons]
    rw [lookupCodeCount_fold c l (incrementCodeCount m r.responseCode),
      lookupCodeCount_increment]
    by_cases h : r.responseCode = c
    · simp [h]
      omega
    · simp [h]

/-- C2: for a non-empty record sequence the reported average is the
round-half-up (`⌊x + 1/2⌋`) of the latency sum over the count, the reported
minimum and maximum are the least and greatest latency actually present,
and the code histogram assigns every status code its exact occurrence
count; the concrete examples of the spec hold: latencies `[10, 20, 30]` give
average `20`, minimum `10`, maximum `30`, and `[10, 11]` gives average `11`
(round-half-up of `10.5`). -/
theorem summarize_stats (l : List RunEntry) (h : l ≠ []) :
    getAverageResponseTime l =
      ⌊(l.map (·.responseTime)).sum / (l.length : ℚ) + 1 / 2⌋ ∧
    getMinimumResponseTime l ∈ l.map (·.responseTime) ∧
    (∀ t ∈ l.map (·.responseTime), getMinimumResponseTime l ≤ t) ∧
    getMaximumResponseTime l ∈ l.map (·.responseTime) ∧
    (∀ t ∈ l.map (·.responseTime), t ≤ getMaximumResponseTime l) ∧
    (∀ c : Int, lookupCodeCount c (getResponseCodeCounts l) =
      (l.filter (fun r => r.responseCode = c)).length) ∧
    getAverageResponseTime demoLatencies123 = 20 ∧
    getMinimumResponseTime demoLatencies123 = 10 ∧
    getMaximumResponseTime demoLatencies123 = 30 ∧
    getAverageResponseTime demoLatencies1011 = 11 := by
  obtain ⟨t, ts, rfl⟩ : ∃ t ts, l = t :: ts := by
    cases l with
    | nil => exact absurd rfl h
    | cons t ts => exact ⟨t, ts, rfl⟩
  refine ⟨?_, ?_, ?_, ?_, ?_, ?_,
    by norm_num [getAverageResponseTime, totalResponseTime, demoLatencies123,
      round_eq],
    by norm_num [getMinimumResponseTime, demoLatencies123],
    by norm_num [getMaximumResponseTime, demoLatencies123],
    by norm_num [getAverageResponseTime, totalResponseTime, demoLatencies1011,
      round_eq]⟩
  · rw [getAverageResponseTime, totalResponseTime_eq_sum, round_eq]
  · simpa [getMinimumResponseTime] using
      foldl_min_mem t.responseTime (ts.map (·.responseTime))
  · intro x hx
    simpa [getMinimumResponseTime] using
      foldl_min_le t.responseTime (ts.map (·.responseTime)) x (by simpa using hx)
  · simpa [getMaximumResponseTime] using
      foldl_max_mem t.responseTime (ts.map (·.responseTime))
  · intro x hx
    simpa [getMaximumResponseTime] using
      le_foldl_max t.responseTime (ts.map (·.responseTime)) x (by simpa using hx)
  · intro c
    simpa [getResponseCodeCounts, lookupCodeCount] using
      lookupCodeCount_fold c (t :: ts) []

/-- C2 witness: the statistics theorem applied to the concrete entries with
latencies `[10, 20, 30]`. -/
theorem summarize_stats_witness :
    getAverageResponseTime demoLatencies123 =
      ⌊(demoLatencies123.map (·.responseTime)).sum /
        (demoLatencies123.length : ℚ) + 1 / 2⌋ :=
  (summarize_stats demoLatencies123 (by decide)).1

/-! ### Request-body injection -/

theorem buildEnvVarsFrom_mem_of (u : ℕ) (reqs : List DataRequest) :
    ∀ (items : List String) (j k : ℕ) (item : String) (request : DataRequest),
      items[j]? = some item →
      reqs.find? (fun r => r.name = item) = some request →
      ("requestBody" ++ toString (k + j + 1),
        (request.bodies[(u - 1) % request.bodies.length]?).map Json.stringify) ∈
        buildEnvVarsFrom k u reqs items
  | [], j, k, item, request, hj, _ => by simp at hj
  | item0 :: rest, 0, k, item, request, hj, hfind => by
    simp only [List.getElem?_cons_zero, Option.some_inj] at hj
    subst hj
    simp only [buildEnvVarsFrom, hfind]
    exact List.mem_cons_self _ _
  | item0 :: rest, j + 1, k, item, request, hj, hfind => by
    simp only [List.getElem?_cons_succ] at hj
    have ih := buildEnvVarsFrom_mem_of u reqs rest j (k + 1) item request hj hfind
    have harith : k + 1 + j + 1 = k + (j + 1) + 1 := by omega
    rw [harith] at ih
    cases hf : reqs.find? (fun r => r.name = item0) with
    | some request0 =>
      simp only [buildEnvVarsFrom, hf]
      exact List.mem_cons_of_mem _ ih
    | none =>
      simpa only [buildEnvVarsFrom, hf] using ih

theorem buildEnvVarsFrom_mem_elim (u : ℕ) (reqs : List DataRequest) :
    ∀ (items : List String) (k : ℕ) (e : EnvVar),
      e ∈ buildEnvVarsFrom k u reqs items →
      ∃ (j : ℕ) (item : String) (request : DataRequest),
        items[j]? = some item ∧
        reqs.find? (fun r => r.name = item) = some request ∧
        e = ("requestBody" ++ toString (k + j + 1),
          (request.bodies[(u - 1) % request.bodies.length]?).map Json.stringify)
  | [], k, e, he => by simp [buildEnvVarsFrom] at he
  | item0 :: rest, k, e, he => by
    cases hf : reqs.find? (fun r => r.name = item0) with
    | some request0 =>
      rw [buildEnvVarsFrom, hf] at he
      rcases List.mem_cons.mp he with h | h
      · exact ⟨0, item0, request0, by simp, hf, h⟩
      · obtain ⟨j, item, request, hj, hfind, rfl⟩ :=
          buildEnvVarsFrom_mem_elim u reqs rest (k + 1) e h
        refine ⟨j + 1, item, request, by simpa using hj, hfind, ?_⟩
        have harith : k + 1 + j + 1 = k + (j + 1) + 1 := by omega
        rw [harith]
    | none =>
      rw [buildEnvVarsFrom, hf] at he
      obtain ⟨j, item, request, hj, hfind, rfl⟩ :=
        buildEnvVarsFrom_mem_elim u reqs rest (k + 1) e he
      refine ⟨j + 1, item, request, by simpa using hj, hfind, ?_⟩
      have harith : k + 1 + j + 1 = k + (j + 1) + 1 := by omega
      rw [harith]

theorem buildEnvVarsFrom_keys (u : ℕ) (reqs : List DataRequest) :
    ∀ (items : List String) (k : ℕ),
      (buildEnvVarsFrom k u reqs items).map Prod.fst =
        ((items.enumFrom k).filter
          (fun p => (reqs.find? (fun r => r.name = p.2)).isSome)).map
          (fun p => "requestBody" ++ toString (p.1 + 1))
  | [], k => rfl
  | item0 :: rest, k => by
    cases hf : reqs.find? (fun r => r.name = item0) with
    | some request0 =>
      simp [buildEnvVarsFrom, hf, List.enumFrom,
        buildEnvVarsFrom_keys u reqs rest (k + 1)]
    | none =>
      simp [buildEnvVarsFrom, hf, List.enumFrom,
        buildEnvVarsFrom_keys u reqs rest (k + 1)]

/-- C3: with a data file loaded, the collection item at position `j` whose
name matches an entry of the set receives the body at index
`(userNumber - 1) mod bodyCount` of that entry, injected under the
environment-variable name `requestBody(j+1)` of the per-run
`envVarConfig`; with two bodies for `Create`, users 1 and 3 select the
first body and user 2 the second. -/
theorem requestBody_rotation
    (items : List String) (reqs : List DataRequest) (request : DataRequest)
    (u j : ℕ) (item : String) (b : Json)
    (hitem : items[j]? = some item)
    (hfind : reqs.find? (fun r => r.name = item) = some request)
    (hreqs : 0 < reqs.length)
    (hb : request.bodies[(u - 1) % request.bodies.length]? = some b) :
    ("requestBody" ++ toString (j + 1), some (Json.stringify b)) ∈
      runCollectionEnvVars true items reqs u ∧
    (runCollectionEnvVars true ["Create"] demoRequests 1).map Prod.snd =
      [some (Json.stringify demoBodyA)] ∧
    (runCollectionEnvVars true ["Create"] demoRequests 2).map Prod.snd =
      [some (Json.stringify demoBodyB)] ∧
    (runCollectionEnvVars true ["Create"] demoRequests 3).map Prod.snd =
      [some (Json.stringify demoBodyA)] := by
  refine ⟨?_, rfl, rfl, rfl⟩
  have h := buildEnvVarsFrom_mem_of u reqs items j 0 item request hitem hfind
  rw [hb] at h
  simpa [runCollectionEnvVars, hreqs] using h

/-- C3 witness: user 1 of the two-body `Create` example receives the first
body, serialized, under `requestBody1`. -/
theorem requestBody_rotation_witness :
    ("requestBody" ++ toString (0 + 1), some (Json.stringify demoBodyA)) ∈
      runCollectionEnvVars true ["Create"] demoRequests 1 :=
  (requestBody_rotation ["Create"] demoRequests ⟨"Create", [demoBodyA, demoBodyB]⟩
    1 0 "Create" demoBodyA rfl rfl (by decide) rfl).1

/-- C10: the injected variable names use, for each matching item, its own 1-based
position in the collection — unmatched items inject nothing at all, so the
`requestBody{n}` sequence may have gaps — and every injected value is the
JSON string serialization of the selected body, not the raw body object. -/
theorem envVar_positions_and_serialization
    (items : List String) (reqs : List DataRequest) (u : ℕ)
    (hreqs : 0 < reqs.length) :
    (runCollectionEnvVars true items reqs u).map Prod.fst =
      ((items.enum.filter
        (fun p => (reqs.find? (fun r => r.name = p.2)).isSome)).map
        (fun p => "requestBody" ++ toString (p.1 + 1))) ∧
    (∀ e ∈ runCollectionEnvVars true items reqs u,
      ∃ (j : ℕ) (item : String) (request : DataRequest),
        items[j]? = some item ∧
        reqs.find? (fun r => r.name = item) = some request ∧
        e = ("requestBody" ++ toString (j + 1),
          (request.bodies[(u - 1) % request.bodies.length]?).map
            Json.stringify)) ∧
    (runCollectionEnvVars true ["A", "B", "C"] demoGapRequests 1).map Prod.fst =
      ["requestBody1", "requestBody3"] ∧
    runCollectionEnvVars true ["Create"] demoRequests 1 =
      [("requestBody1", some "\x7b\"x\":1\x7d")] := by
  refine ⟨?_, ?_, ?_, ?_⟩
  · rw [show items.enum = items.enumFrom 0 from rfl]
    simpa [runCollectionEnvVars, hreqs] using
      buildEnvVarsFrom_keys u reqs items 0
  · intro e he
    rw [runCollectionEnvVars, if_pos ⟨rfl, hreqs⟩] at he
    simpa using buildEnvVarsFrom_mem_elim u reqs items 0 e he
  · simp only [runCollectionEnvVars, demoGapRequests, buildEnvVarsFrom]
    decide
  · simp only [runCollectionEnvVars, demoRequests, buildEnvVarsFrom,
      demoBodyA, Json.stringify, Json.stringifyFields, jsonEscape]
    decide

/-- C10 witness: the gap example — items `A`, `B`, `C` with data entries
for `A` and `C` only — injects exactly `requestBody1` and `requestBody3`. -/
theorem envVar_positions_witness :
    (runCollectionEnvVars true ["A", "B", "C"] demoGapRequests 1).map Prod.fst =
      ["requestBody1", "requestBody3"] :=
  (envVar_positions_and_serialization ["A", "B", "C"] demoGapRequests 1
    (by decide)).2.2.1

/-! ### CLI integer parsing -/

/-- C9 counterexample: `myParseInt` accepts `"-5"` and returns `-5`, a
non-positive integer, so "any value accepted by the parser is a positive
integer" is false of the code (zero and negative integers pass
validation). -/
theorem myParseInt_counterexample :
    ¬ (∀ (s : String) (n : Int), myParseInt s = some n → 0 < n) := by
  intro h
  have h5 : myParseInt "-5" = some (-5) := rfl
  exact absurd (h "-5" (-5) h5) (by decide)

/-- C9 amended: an unparseable argument (no leading decimal integer) makes
`myParseInt` throw `InvalidArgumentError` ("Not a number."), which is fatal
before any scheduling starts, and every accepted value is an integer — but
positivity is not checked: zero and negative integers are accepted. -/
theorem myParseInt_accepts_any_integer (s : String) (n : Int) :
    (myParseInt s = some n → parseRequiredIntOption s = Except.ok n) ∧
    (myParseInt s = none →
      parseRequiredIntOption s = Except.error "Not a number.") ∧
    myParseInt "abc" = none ∧
    parseRequiredIntOption "abc" = Except.error "Not a number." ∧
    myParseInt "12" = some 12 ∧
    myParseInt "0" = some 0 ∧
    myParseInt "-5" = some (-5) := by
  refine ⟨?_, ?_, rfl, rfl, rfl, rfl, rfl⟩
  · intro h
    simp [parseRequiredIntOption, h]
  · intro h
    simp [parseRequiredIntOption, h]

/-- C9 witness: `"7"` parses to `7` and is handed to the program. -/
theorem myParseInt_accepts_any_integer_witness :
    parseRequiredIntOption "7" = Except.ok 7 :=
  (myParseInt_accepts_any_integer "7" 7).1 rfl

end PostmanPerf
